import Mathlib

/-!
Verification of the Markdown-to-PDF converter (`markdown_to_pdf.py`).

This file shallowly embeds the converter's orchestration logic in Lean:

* YAML-like values and the `_deep_merge` algorithm (value semantics);
* title extraction from the rendered HTML fragment (`convert`, lines 347-354),
  together with the `os.path.basename`/`os.path.splitext` stem computation;
* input validation (`_validate_inputs`);
* the Markdown read with encoding fallback (`_read_markdown`);
* the PDF render-and-retry sequence inside the scoped temporary directory
  (`_convert_to_pdf`), with external renderer outcomes abstracted;
* the exception-to-exit-code mapping of `main` and the wrapping in `convert`;
* a heap model of Python object identity for `DEFAULT_CONFIG.copy()` followed
  by the in-place `_deep_merge`, to examine sharing across converter runs.

Machine-level aspects (actual file IO, the wkhtmltopdf binary, logging output)
are abstracted as explicit parameters; everything the converter itself computes
is translated directly from the source.
-/

namespace MdToPdf

/-- Error kinds of the converter: `ConfigurationError`, `DependencyError`,
`InputValidationError` and the base `ConversionError` (source lines 87-105).
All three specific kinds subclass `ConversionError`. -/
inductive ErrKind where
  | configuration
  | dependency
  | inputValidation
  | conversion
deriving DecidableEq

/-- A YAML-like value, covering everything a parsed configuration can hold:
scalars (null, booleans, numbers, strings), lists and string-keyed maps. -/
inductive Value where
  | vnull
  | vbool (b : Bool)
  | vnum (n : Int)
  | vstr (s : String)
  | vlist (l : List Value)
  | vdict (d : List (String × Value))

/-- A Python dict with string keys, modelled as an insertion-ordered
association list (Python dicts preserve insertion order and have no
duplicate keys). -/
abbrev Dict := List (String × Value)

/-- Python `d[k]` / `k in d`: the value at key `k`, if present. -/
def lookupD : Dict → String → Option Value
  | [], _ => none
  | (k', v') :: rest, k => if k' = k then some v' else lookupD rest k

/-- Python `d[k] = v`: replace the value at `k` if the key is present
(keeping its position), otherwise append the new binding at the end. -/
def setKeyD : Dict → String → Value → Dict
  | [], k, v => [(k, v)]
  | (k', v') :: rest, k, v =>
      if k' = k then (k, v) :: rest else (k', v') :: setKeyD rest k v

mutual

/-- The value `_deep_merge` stores at a key of the override map (the branch at
source lines 150-153): when the existing base value and the override value are
both dicts, the recursive merge of the two; otherwise the override value. -/
def merge_val : Option Value → Value → Value
  | some (Value.vdict bd), Value.vdict vd => Value.vdict (deep_merge bd vd)
  | _, v => v
termination_by _bv v => sizeOf v

/-- The `_deep_merge` algorithm (source lines 140-154), value semantics: for
each binding `(k, v)` of the override map in order, `base[k]` becomes
`merge_val base[k] v`. -/
def deep_merge : Dict → Dict → Dict
  | base, [] => base
  | base, (k, v) :: rest =>
      deep_merge (setKeyD base k (merge_val (lookupD base k) v)) rest
termination_by _b u => sizeOf u

end

theorem lookupD_setKeyD_self (d : Dict) (k : String) (v : Value) :
    lookupD (setKeyD d k v) k = some v := by
  induction d with
  | nil => simp [setKeyD, lookupD]
  | cons p rest ih =>
      obtain ⟨k', v'⟩ := p
      by_cases h : k' = k
      · simp [setKeyD, h, lookupD]
      · simp [setKeyD, h, lookupD, ih]

theorem lookupD_setKeyD_other (d : Dict) (k k' : String) (v : Value)
    (h : k ≠ k') : lookupD (setKeyD d k v) k' = lookupD d k' := by
  induction d with
  | nil => simp [setKeyD, lookupD, h]
  | cons p rest ih =>
      obtain ⟨k₀, v₀⟩ := p
      by_cases h0 : k₀ = k
      · subst h0
        simp [setKeyD, lookupD, h]
      · simp [setKeyD, h0]
        by_cases h1 : k₀ = k'
        · simp [lookupD, h1]
        · simp [lookupD, h1, ih]

theorem lookupD_eq_none_of_not_mem (d : Dict) (k : String)
    (h : k ∉ d.map Prod.fst) : lookupD d k = none := by
  induction d with
  | nil => rfl
  | cons p rest ih =>
      obtain ⟨k', v'⟩ := p
      have h1 : k' ≠ k := fun he => h (by simp [he])
      have h2 : k ∉ rest.map Prod.fst := fun hm => h (by simp [hm])
      simp [lookupD, h1, ih h2]

theorem lookupD_deep_merge_of_not_mem (B O : Dict) (k : String)
    (h : lookupD O k = none) :
    lookupD (deep_merge B O) k = lookupD B k := by
  induction O generalizing B with
  | nil => rw [deep_merge]
  | cons p rest ih =>
      obtain ⟨k', v'⟩ := p
      have hk : k' ≠ k := by
        intro he
        simp [lookupD, he] at h
      have hrest : lookupD rest k = none := by
        simpa [lookupD, hk] using h
      rw [deep_merge, ih _ hrest, lookupD_setKeyD_other _ _ _ _ hk]

/-- C1. Deep merge: every key of the base map `B` that is **not** in the
override map `O` keeps its original value in the merged result; every key
present in `O` maps, in the merged result, to the recursive merge when both
sides are dicts, and to the override value otherwise (lists and strings are
replaced whole — `merge_val` returns the override value whenever either side
is not a dict). -/
theorem deep_merge_spec (B O : Dict) (k : String)
    (hO : (O.map Prod.fst).Nodup) :
    (lookupD O k = none → lookupD (deep_merge B O) k = lookupD B k) ∧
    (∀ ov, lookupD O k = some ov →
        lookupD (deep_merge B O) k = some (merge_val (lookupD B k) ov)) := by
  constructor
  · exact lookupD_deep_merge_of_not_mem B O k
  · induction O generalizing B with
    | nil => intro ov h; simp [lookupD] at h
    | cons p rest ih =>
        obtain ⟨k', v'⟩ := p
        intro ov h
        by_cases hk : k' = k
        · subst hk
          have hov : v' = ov := by simpa [lookupD] using h
          subst hov
          have hnotin : lookupD rest k' = none :=
            lookupD_eq_none_of_not_mem _ _ (by simpa using (List.nodup_cons.mp hO).1)
          rw [deep_merge, lookupD_deep_merge_of_not_mem _ _ _ hnotin,
            lookupD_setKeyD_self]
        · have hrest : lookupD rest k = some ov := by
            simpa [lookupD, hk] using h
          have hOrest : (rest.map Prod.fst).Nodup := (List.nodup_cons.mp hO).2
          rw [deep_merge, ih _ hOrest _ hrest,
            lookupD_setKeyD_other _ _ _ _ hk]

/-- Witness for `deep_merge_spec` at a concrete base and override map:
`B = {a: "1", m: {x: "1", y: "2"}}`, `O = {m: {x: "9"}, b: "3"}`, key `m`.
The merged value at `m` is the recursive merge `{x: "9", y: "2"}`. -/
theorem deep_merge_spec_witness :
    (([("m", Value.vdict [("x", Value.vstr "9")]), ("b", Value.vstr "3")]
        : Dict).map Prod.fst).Nodup ∧
    lookupD
      (deep_merge
        [("a", Value.vstr "1"),
         ("m", Value.vdict [("x", Value.vstr "1"), ("y", Value.vstr "2")])]
        [("m", Value.vdict [("x", Value.vstr "9")]), ("b", Value.vstr "3")])
      "m"
      = some (Value.vdict [("x", Value.vstr "9"), ("y", Value.vstr "2")]) := by
  constructor
  · decide
  · have h :=
      (deep_merge_spec
        [("a", Value.vstr "1"),
         ("m", Value.vdict [("x", Value.vstr "1"), ("y", Value.vstr "2")])]
        [("m", Value.vdict [("x", Value.vstr "9")]), ("b", Value.vstr "3")]
        "m" (by decide)).2
        (Value.vdict [("x", Value.vstr "9")]) (by simp [lookupD])
    rw [h]
    simp [lookupD, merge_val, deep_merge, setKeyD]

/-! Section: Strings, paths and title extraction

Python strings are modelled as `List Char` (Python indexes by code point).
`findSub pat s` is `s.find(pat)`: the least index at which `pat` occurs in
`s`, `none` when Python returns `-1`. -/

/-- Python `s.find(pat)` (`none` for `-1`): index of the first occurrence. -/
def findSub (pat : List Char) : List Char → Option Nat
  | [] => if pat.isPrefixOf ([] : List Char) then some 0 else none
  | c :: rest =>
      if pat.isPrefixOf (c :: rest) then some 0
      else (findSub pat rest).map (· + 1)

/-- Python `pat in s`: substring containment. -/
def hasSub (s pat : List Char) : Bool := (findSub pat s).isSome

/-- The literal opening tag `"<h1>"` searched for at source line 349. -/
def h1open : List Char := ['<', 'h', '1', '>']

/-- The literal closing tag `"</h1>"` searched for at source line 352. -/
def h1close : List Char := ['<', '/', 'h', '1', '>']

/-- Characters removed by Python `str.strip()` (ASCII whitespace; the model
restricts Python's Unicode whitespace set to ASCII). -/
def isPySpace (c : Char) : Bool :=
  c = ' ' || c = '\t' || c = '\n' || c = '\r' || c = '\x0b' || c = '\x0c'

/-- Python `str.strip()`: drop whitespace from both ends. -/
def pyStrip (s : List Char) : List Char :=
  ((s.dropWhile isPySpace).reverse.dropWhile isPySpace).reverse

/-- Python `s.rfind(c)` for a single character (`none` for `-1`): index of
the last occurrence. -/
def rfindChar (c : Char) : List Char → Option Nat
  | [] => none
  | a :: rest =>
      match rfindChar c rest with
      | some i => some (i + 1)
      | none => if a = c then some 0 else none

/-- Python `os.path.basename` (POSIX): everything after the last `/`. -/
def basenameOf (p : List Char) : List Char :=
  match rfindChar '/' p with
  | none => p
  | some i => p.drop (i + 1)

/-- The root part of Python `os.path.splitext` applied to a basename:
split at the last dot, except when every character before that dot is
itself a dot (so `.bashrc` has no extension). -/
def splitextStem (p : List Char) : List Char :=
  match rfindChar '.' p with
  | none => p
  | some d => if (p.take d).any (fun c => c ≠ '.') then p.take d else p

/-- The fallback title of `convert` (source line 348):
`os.path.splitext(os.path.basename(markdown_file))[0]`. -/
def stem (p : List Char) : List Char := splitextStem (basenameOf p)

/-- Title extraction from the rendered HTML fragment (source lines 349-354):
if `"<h1>"` occurs, take the text between the end of its first occurrence and
the next `"</h1>"`, stripped; keep the fallback when the closing tag is
missing (`find` returns `-1`) or the inner text is empty. -/
def extractTitle (html fallback : List Char) : List Char :=
  match findSub h1open html with
  | none => fallback
  | some i =>
      let hs := i + 4
      match findSub h1close (html.drop hs) with
      | none => fallback
      | some d =>
          let he := hs + d
          if hs > 3 ∧ he > hs then pyStrip ((html.drop hs).take (he - hs))
          else fallback

/-- The title used by `convert` (source lines 347-354): extracted from the
HTML fragment, with the input file's stem as fallback. -/
def convert_title (markdownFile html : List Char) : List Char :=
  extractTitle html (stem markdownFile)

theorem findSub_of_isPrefixOf (pat s : List Char)
    (h : pat.isPrefixOf s = true) : findSub pat s = some 0 := by
  cases s <;> simp [findSub, h]

theorem hasSub_cons_of (t pat : List Char) (c : Char)
    (h : hasSub t pat = true) : hasSub (c :: t) pat = true := by
  by_cases hp : pat.isPrefixOf (c :: t) = true
  · simp [hasSub, findSub, hp]
  · cases hf : findSub pat t with
    | none => simp [hasSub, hf] at h
    | some i => simp [hasSub, findSub, hp, hf]

theorem hasSub_drop (s pat : List Char) (n : Nat)
    (h : hasSub (s.drop n) pat = true) : hasSub s pat = true := by
  induction n generalizing s with
  | zero => simpa using h
  | succ m ih =>
      cases s with
      | nil => simpa using h
      | cons c rest => exact hasSub_cons_of _ _ c (ih rest (by simpa using h))

theorem take_append_guard (pre pat post : List Char) :
    (pre ++ pat ++ post).take (pre.length + (pat.length - 1))
      = pre ++ pat.take (pat.length - 1) := by
  rw [List.append_assoc, List.take_append_eq_append_take,
    List.take_of_length_le (by omega), List.take_append_eq_append_take]
  have h1 : pre.length + (pat.length - 1) - pre.length = pat.length - 1 := by
    omega
  have h2 : pat.length - 1 - pat.length = 0 := by omega
  rw [h1, h2]
  simp

theorem pfx_of_take (pat s : List Char) (n : Nat) (h : pat <+: s)
    (hn : pat.length ≤ n) : pat <+: s.take n := by
  have h1 : pat = s.take pat.length := List.prefix_iff_eq_take.mp h
  have h2 : pat = (s.take n).take pat.length := by
    rw [List.take_take, Nat.min_eq_left hn]
    exact h1
  exact List.prefix_iff_eq_take.mpr h2

theorem findSub_first (pat pre post : List Char) (hne : pat ≠ [])
    (hno : hasSub (pre ++ pat.take (pat.length - 1)) pat = false) :
    findSub pat (pre ++ pat ++ post) = some pre.length := by
  induction pre with
  | nil =>
      simp only [List.nil_append, List.length_nil]
      exact findSub_of_isPrefixOf _ _
        ( List.isPrefixOf_iff_prefix.mpr ( List.prefix_append _ _))
  | cons c pr ih =>
      have hL : 1 ≤ pat.length := List.length_pos.mpr hne
      have hnp : ¬ (pat.isPrefixOf (c :: (pr ++ pat ++ post)) = true) := by
        intro hp
        have hpfx : pat <+: (c :: pr) ++ pat ++ post := by
          have := List.isPrefixOf_iff_prefix.mp hp
          simpa using this
        have hguard : pat <+: (c :: pr) ++ pat.take (pat.length - 1) := by
          have := pfx_of_take pat ((c :: pr) ++ pat ++ post)
            ((c :: pr).length + (pat.length - 1)) hpfx
            (by simp; omega)
          rwa [take_append_guard] at this
        have hfs : findSub pat ((c :: pr) ++ pat.take (pat.length - 1))
            = some 0 :=
          findSub_of_isPrefixOf _ _ ( List.isPrefixOf_iff_prefix.mpr hguard)
        rw [List.cons_append] at hfs
        have ht : hasSub (c :: (pr ++ pat.take (pat.length - 1))) pat
            = true := by
          simp [hasSub, hfs]
        rw [List.cons_append] at hno
        rw [ht] at hno
        simp at hno
      have hno' : hasSub (pr ++ pat.take (pat.length - 1)) pat = false := by
        by_contra hc
        have ht : hasSub (c :: (pr ++ pat.take (pat.length - 1))) pat = true :=
          hasSub_cons_of _ _ c (by simpa using Bool.of_not_eq_false hc)
        rw [List.cons_append] at hno
        rw [ht] at hno
        simp at hno
      have hrec := ih hno'
      show findSub pat (c :: (pr ++ pat ++ post)) = some (pr.length + 1)
      rw [findSub, if_neg hnp, hrec]
      rfl

theorem drop_pre_h1open (pre rest : List Char) :
    ((pre ++ h1open) ++ rest).drop (pre.length + 4) = rest := by
  have h : (pre ++ h1open).length = pre.length + 4 := by simp [h1open]
  rw [← h, List.drop_left]

theorem extractTitle_found (pre t post fb : List Char)
    (h1 : hasSub (pre ++ h1open.take 3) h1open = false)
    (h2 : hasSub (t ++ h1close.take 4) h1close = false)
    (h3 : t ≠ []) :
    extractTitle (pre ++ h1open ++ t ++ h1close ++ post) fb = pyStrip t := by
  have hfo := findSub_first h1open pre (t ++ h1close ++ post) (by decide) h1
  have hfc := findSub_first h1close t post (by decide) h2
  simp only [List.append_assoc] at hfo hfc ⊢
  have hdrop : (pre ++ (h1open ++ (t ++ (h1close ++ post)))).drop
      (pre.length + 4) = t ++ (h1close ++ post) := by
    rw [← List.append_assoc pre h1open]
    exact drop_pre_h1open pre (t ++ (h1close ++ post))
  have htl : 0 < t.length := List.length_pos.mpr h3
  have hidx : pre.length + 4 + t.length - (pre.length + 4) = t.length := by
    omega
  rw [extractTitle, hfo]
  simp only
  rw [hdrop, hfc]
  simp only
  rw [if_pos ⟨by omega, by omega⟩, hidx, List.take_left]

theorem extractTitle_of_no_h1 (html fb : List Char)
    (h : hasSub html h1open = false) : extractTitle html fb = fb := by
  have hn : findSub h1open html = none := by
    cases hf : findSub h1open html with
    | none => rfl
    | some i => rw [hasSub, hf] at h; simp at h
  simp [extractTitle, hn]

theorem extractTitle_no_close (html fb : List Char)
    (hopen : hasSub html h1open = true)
    (hnoclose : hasSub html h1close = false) :
    extractTitle html fb = fb := by
  obtain ⟨i, hi⟩ := Option.isSome_iff_exists.mp hopen
  have hnone : findSub h1close (html.drop (i + 4)) = none := by
    cases hf : findSub h1close (html.drop (i + 4)) with
    | none => rfl
    | some d =>
        have hd : hasSub (html.drop (i + 4)) h1close = true := by
          simp [hasSub, hf]
        have hall := hasSub_drop _ _ _ hd
        rw [hall] at hnoclose
        simp at hnoclose
  simp [extractTitle, hi, hnone]

/-- C2. Title extraction: when the rendered fragment is
`pre ++ "<h1>" ++ t ++ "</h1>" ++ post` with the shown occurrences being the
first ones (no `"<h1>"` earlier, no `"</h1>"` inside `t`) and `t` non-empty,
the title `convert` uses is `t` stripped of surrounding whitespace; when the
fragment contains no `"<h1>"` at all, the title is the input file's base name
with its extension removed. -/
theorem convert_title_spec (file pre t post html : List Char)
    (h1 : hasSub (pre ++ h1open.take 3) h1open = false)
    (h2 : hasSub (t ++ h1close.take 4) h1close = false)
    (h3 : t ≠ [])
    (hn : hasSub html h1open = false) :
    convert_title file (pre ++ h1open ++ t ++ h1close ++ post) = pyStrip t ∧
    convert_title file html = stem file :=
  ⟨extractTitle_found pre t post (stem file) h1 h2 h3,
   extractTitle_of_no_h1 html (stem file) hn⟩

/-- Witness for `convert_title_spec`: the fragment
`"<p>a</p><h1> Hello </h1><p>b</p>"` yields the title `"Hello"`; the fragment
`"<p>plain</p>"` (no `<h1>`) yields `"guide"` for input `"docs/guide.md"`. -/
theorem convert_title_spec_witness :
    hasSub (String.toList "<p>a</p>" ++ h1open.take 3) h1open = false ∧
    hasSub (String.toList " Hello " ++ h1close.take 4) h1close = false ∧
    String.toList " Hello " ≠ [] ∧
    hasSub (String.toList "<p>plain</p>") h1open = false ∧
    convert_title (String.toList "docs/guide.md")
      (String.toList "<p>a</p>" ++ h1open ++ String.toList " Hello "
        ++ h1close ++ String.toList "<p>b</p>") = String.toList "Hello" ∧
    convert_title (String.toList "docs/guide.md")
      (String.toList "<p>plain</p>") = String.toList "guide" := by
  have h := convert_title_spec (String.toList "docs/guide.md")
    (String.toList "<p>a</p>") (String.toList " Hello ")
    (String.toList "<p>b</p>") (String.toList "<p>plain</p>")
    (by decide) (by decide) (by decide) (by decide)
  exact ⟨by decide, by decide, by decide, by decide,
    h.1.trans (by decide), h.2.trans (by decide)⟩

/-- C9. The scan recognizes only the literal four-character tag `"<h1>"`:
a fragment whose level-1 headings all carry attributes (so the literal
`"<h1>"` never occurs, e.g. `<h1 id="x">Hello</h1>`) keeps the base-name
title, and so does a fragment that contains `"<h1>"` but no `"</h1>"`. -/
theorem convert_title_attrs_or_unclosed (fileA htmlA fileB htmlB : List Char)
    (hattr : hasSub htmlA h1open = false)
    (hopen : hasSub htmlB h1open = true)
    (hnoclose : hasSub htmlB h1close = false) :
    convert_title fileA htmlA = stem fileA ∧
    convert_title fileB htmlB = stem fileB :=
  ⟨extractTitle_of_no_h1 htmlA (stem fileA) hattr,
   extractTitle_no_close htmlB (stem fileB) hopen hnoclose⟩

/-- Witness for `convert_title_attrs_or_unclosed`: the fragment
`<h1 id="x">Hello</h1>` (attributes on every heading) yields title `"a"` for
input `"a.md"`, and the fragment `"<h1>Oops"` (no closing tag) yields `"b"`
for input `"b.md"`. -/
theorem convert_title_attrs_or_unclosed_witness :
    hasSub (String.toList "<h1 id=\"x\">Hello</h1>") h1open = false ∧
    hasSub (String.toList "<h1>Oops") h1open = true ∧
    hasSub (String.toList "<h1>Oops") h1close = false ∧
    convert_title (String.toList "a.md")
      (String.toList "<h1 id=\"x\">Hello</h1>") = String.toList "a" ∧
    convert_title (String.toList "b.md") (String.toList "<h1>Oops")
      = String.toList "b" := by
  have h := convert_title_attrs_or_unclosed (String.toList "a.md")
    (String.toList "<h1 id=\"x\">Hello</h1>") (String.toList "b.md")
    (String.toList "<h1>Oops") (by decide) (by decide) (by decide)
  exact ⟨by decide, by decide, by decide,
    h.1.trans (by decide), h.2.trans (by decide)⟩

/-! Section: Input validation -/

/-- The extension check of `_validate_inputs` (source line 185):
`markdown_file.lower().endswith(('.md', '.markdown'))` (Python's Unicode
lowercasing restricted to the ASCII mapping). -/
def hasMdExt (p : List Char) : Bool :=
  List.isSuffixOf (String.toList ".md") (p.map Char.toLower)
    || List.isSuffixOf (String.toList ".markdown") (p.map Char.toLower)

/-- Python `os.path.dirname` (POSIX): everything up to and including the last
`/`, with trailing slashes stripped unless the head consists of slashes only;
the empty string when there is no `/`. -/
def dirname (p : List Char) : List Char :=
  match rfindChar '/' p with
  | none => []
  | some i =>
      let head := p.take (i + 1)
      if head.all (fun c => c = '/') then head
      else (head.reverse.dropWhile (fun c => c = '/')).reverse

/-- The output directory checked by `_validate_inputs` (source line 181):
`os.path.dirname(output_pdf) or '.'`. -/
def outputDirFor (p : List Char) : List Char :=
  let d := dirname p
  if d.isEmpty then String.toList "." else d

/-- An abstract file system: which paths are existing regular files and which
are existing directories (`os.path.isfile` / `os.path.isdir`). -/
structure FS where
  isFile : List Char → Bool
  isDir : List Char → Bool

/-- The `_validate_inputs` check (source lines 171-186). On success the
`Bool` payload records whether the non-fatal warning about a non-Markdown
extension was logged. -/
def validate_inputs (fs : FS) (markdownFile outputPdf : List Char) :
    Except ErrKind Bool :=
  if fs.isFile markdownFile = false then Except.error ErrKind.inputValidation
  else if fs.isDir (outputDirFor outputPdf) = false then
    Except.error ErrKind.inputValidation
  else Except.ok (! hasMdExt markdownFile)

/-- C5. Input validation: a non-existent input file is an Input-Validation
error; an existing input with a non-existent output directory is an
Input-Validation error; and when both paths check out, validation succeeds
even for a filename without a Markdown extension — that case only sets the
warning flag (`true` exactly when the extension is not `.md`/`.markdown`). -/
theorem validate_inputs_spec (fs : FS) (md out : List Char) :
    (fs.isFile md = false →
        validate_inputs fs md out = Except.error ErrKind.inputValidation) ∧
    (fs.isFile md = true → fs.isDir (outputDirFor out) = false →
        validate_inputs fs md out = Except.error ErrKind.inputValidation) ∧
    (fs.isFile md = true → fs.isDir (outputDirFor out) = true →
        validate_inputs fs md out = Except.ok (! hasMdExt md)) :=
  ⟨fun h => by simp [validate_inputs, h],
   fun h1 h2 => by simp [validate_inputs, h1, h2],
   fun h1 h2 => by simp [validate_inputs, h1, h2]⟩

/-- A small file system for the validation witnesses: `notes.txt` is the only
file and `.` the only directory. -/
def fsC5 : FS :=
  ⟨fun p => p == String.toList "notes.txt", fun d => d == String.toList "."⟩

/-- Witness for `validate_inputs_spec` on `fsC5`: a missing input errors, a
missing output directory errors, and a `.txt` input into the current
directory succeeds with the warning flag set. -/
theorem validate_inputs_spec_witness :
    fsC5.isFile (String.toList "absent.md") = false ∧
    validate_inputs fsC5 (String.toList "absent.md")
      (String.toList "out.pdf") = Except.error ErrKind.inputValidation ∧
    fsC5.isDir (outputDirFor (String.toList "missing/out.pdf")) = false ∧
    validate_inputs fsC5 (String.toList "notes.txt")
      (String.toList "missing/out.pdf")
      = Except.error ErrKind.inputValidation ∧
    validate_inputs fsC5 (String.toList "notes.txt")
      (String.toList "out.pdf") = Except.ok true := by
  refine ⟨by decide, ?_, by decide, ?_, ?_⟩
  · exact (validate_inputs_spec fsC5 (String.toList "absent.md")
      (String.toList "out.pdf")).1 (by decide)
  · exact (validate_inputs_spec fsC5 (String.toList "notes.txt")
      (String.toList "missing/out.pdf")).2.1 (by decide) (by decide)
  · exact ((validate_inputs_spec fsC5 (String.toList "notes.txt")
      (String.toList "out.pdf")).2.2 (by decide) (by decide)).trans (by rfl)

theorem rfindChar_eq_none (c : Char) (p : List Char) (h : c ∉ p) :
    rfindChar c p = none := by
  induction p with
  | nil => rfl
  | cons a rest ih =>
      have h1 : a ≠ c := fun he => h (by simp [he])
      have h2 : c ∉ rest := fun hm => h (List.mem_cons_of_mem _ hm)
      simp [rfindChar, ih h2, h1]

/-- C10. A bare output filename (no `/` anywhere) has dirname `""`, so the
checked output directory is `"."`; validation of such an output path succeeds
whenever the input file exists and the current working directory does. -/
theorem bare_output_dir_spec (fs : FS) (md out : List Char)
    (hslash : '/' ∉ out)
    (hfile : fs.isFile md = true)
    (hdot : fs.isDir (String.toList ".") = true) :
    outputDirFor out = String.toList "." ∧
    validate_inputs fs md out = Except.ok (! hasMdExt md) := by
  have hrf : rfindChar '/' out = none := rfindChar_eq_none '/' out hslash
  have hdir : outputDirFor out = String.toList "." := by
    simp [outputDirFor, dirname, hrf]
  have hdot2 : fs.isDir ['.'] = true := hdot
  exact ⟨hdir, by simp [validate_inputs, hfile, hdir, hdot2]⟩

/-- The file system for the C10 witness: `doc.md` is a file, `.` is a
directory. -/
def fsC10 : FS :=
  ⟨fun p => p == String.toList "doc.md", fun d => d == String.toList "."⟩

/-- Witness for `bare_output_dir_spec`: converting `doc.md` to the bare
output name `out.pdf` validates against `"."` and succeeds, with no
extension warning. -/
theorem bare_output_dir_spec_witness :
    '/' ∉ String.toList "out.pdf" ∧
    outputDirFor (String.toList "out.pdf") = String.toList "." ∧
    validate_inputs fsC10 (String.toList "doc.md")
      (String.toList "out.pdf") = Except.ok false := by
  have h := bare_output_dir_spec fsC10 (String.toList "doc.md")
    (String.toList "out.pdf") (by decide) (by decide) (by decide)
  exact ⟨by decide, h.1, h.2.trans (by rfl)⟩

/-! Section: Reading the Markdown file -/

/-- Outcome of one open-and-read of the input file at a given encoding. -/
inductive ReadOutcome where
  | ok (content : List Char)
  | decodeError
  | otherError
deriving DecidableEq

/-- The behaviour of the input file under each encoding `_read_markdown` may
attempt: what `open(..., encoding='utf-8').read()` and
`open(..., encoding='latin-1').read()` would produce. -/
structure FileReads where
  readUtf8 : ReadOutcome
  readLatin1 : ReadOutcome

/-- The encodings attempted, in order. -/
inductive Enc where
  | utf8
  | latin1
deriving DecidableEq

/-- The `_read_markdown` routine (source lines 188-208): read as UTF-8; on a
`UnicodeDecodeError` retry once as latin-1; any other failure, and any
failure of the retry, is wrapped in a Conversion error. The second component
lists the encodings attempted, in order. -/
def read_markdown (io : FileReads) : Except ErrKind (List Char) × List Enc :=
  match io.readUtf8 with
  | ReadOutcome.ok c => (Except.ok c, [Enc.utf8])
  | ReadOutcome.decodeError =>
      match io.readLatin1 with
      | ReadOutcome.ok c => (Except.ok c, [Enc.utf8, Enc.latin1])
      | _ => (Except.error ErrKind.conversion, [Enc.utf8, Enc.latin1])
  | ReadOutcome.otherError => (Except.error ErrKind.conversion, [Enc.utf8])

/-- C6. Encoding fallback: when the UTF-8 read fails with a decode error, the
read is retried exactly once with latin-1 (the attempt list is
`[utf8, latin1]`); the retry's content is returned on success, and only when
the retry itself fails is the read reported as a Conversion error. -/
theorem read_markdown_fallback (io : FileReads)
    (h : io.readUtf8 = ReadOutcome.decodeError) :
    (read_markdown io).2 = [Enc.utf8, Enc.latin1] ∧
    (∀ c, io.readLatin1 = ReadOutcome.ok c →
        (read_markdown io).1 = Except.ok c) ∧
    ((io.readLatin1 = ReadOutcome.decodeError ∨
        io.readLatin1 = ReadOutcome.otherError) →
      (read_markdown io).1 = Except.error ErrKind.conversion) := by
  refine ⟨?_, ?_, ?_⟩
  · cases hl : io.readLatin1 <;> simp [read_markdown, h, hl]
  · intro c hc
    simp [read_markdown, h, hc]
  · rintro (hl | hl) <;> simp [read_markdown, h, hl]

/-- Witness for `read_markdown_fallback`: a file that decodes only under
latin-1 is read successfully on the second attempt. -/
theorem read_markdown_fallback_witness :
    (FileReads.mk ReadOutcome.decodeError
        (ReadOutcome.ok (String.toList "hi"))).readUtf8
      = ReadOutcome.decodeError ∧
    (read_markdown (FileReads.mk ReadOutcome.decodeError
        (ReadOutcome.ok (String.toList "hi")))).2 = [Enc.utf8, Enc.latin1] ∧
    (read_markdown (FileReads.mk ReadOutcome.decodeError
        (ReadOutcome.ok (String.toList "hi")))).1
      = Except.ok (String.toList "hi") := by
  have h := read_markdown_fallback
    (FileReads.mk ReadOutcome.decodeError (ReadOutcome.ok (String.toList "hi")))
    rfl
  exact ⟨rfl, h.1, h.2.1 _ rfl⟩

/-! Section: PDF generation with retry, inside the scoped temporary directory -/

/-- Events of one `_convert_to_pdf` call: creation of the scoped temporary
directory, each `pdfkit.from_file` attempt with its option dict, and removal
of the temporary directory. -/
inductive Ev where
  | create
  | attempt (opts : Dict)
  | remove

/-- Python `dict.update`: apply each binding of `u` to `d` in order. -/
def updateD (d u : Dict) : Dict :=
  u.foldl (fun acc kv => setKeyD acc kv.1 kv.2) d

/-- The full option set of the first attempt (source lines 299-300):
`self.config['pdf_options'].copy()` updated with `self.config['metadata']`. -/
def fullOptions (pdfOpts metadata : Dict) : Dict := updateD pdfOpts metadata

/-- Python `d.get(k, default)`. -/
def getOr (d : Dict) (k : String) (dflt : Value) : Value :=
  (lookupD d k).getD dflt

/-- The reduced option set of the retry (source lines 322-326): only the
quiet flag, the page size taken from the merged options (default `A4`), and
the UTF-8 encoding. -/
def retryOptionsOf (options : Dict) : Dict :=
  [("quiet", Value.vstr ""),
   ("page-size", getOr options "page-size" (Value.vstr "A4")),
   ("encoding", Value.vstr "UTF-8")]

/-- The `_convert_to_pdf` routine (source lines 292-330), against an abstract
renderer: `render opts` tells whether `pdfkit.from_file` with options `opts`
succeeds, and `writeOk` whether writing the intermediate HTML file succeeds.
The event list records the temporary directory's lifecycle (the guarantee of
`with tempfile.TemporaryDirectory()`) and every render attempt, in order. -/
def convert_to_pdf (writeOk : Bool) (render : Dict → Bool)
    (pdfOpts metadata : Dict) : Except ErrKind Unit × List Ev :=
  let options := fullOptions pdfOpts metadata
  let retry := retryOptionsOf options
  if writeOk = false then
    (Except.error ErrKind.conversion, [Ev.create, Ev.remove])
  else if render options then
    (Except.ok (), [Ev.create, Ev.attempt options, Ev.remove])
  else if render retry then
    (Except.ok (),
      [Ev.create, Ev.attempt options, Ev.attempt retry, Ev.remove])
  else
    (Except.error ErrKind.conversion,
      [Ev.create, Ev.attempt options, Ev.attempt retry, Ev.remove])

/-- C4. PDF-render retry: the first attempt uses the full merged option set;
a second attempt — with the reduced option set whose only keys are the quiet
flag, the page size and the encoding — happens exactly when the first fails;
and when the second also fails the call fails with a Conversion error. -/
theorem pdf_retry_spec (render : Dict → Bool) (pdfOpts metadata : Dict) :
    (render (fullOptions pdfOpts metadata) = true →
        convert_to_pdf true render pdfOpts metadata
          = (Except.ok (), [Ev.create,
              Ev.attempt (fullOptions pdfOpts metadata), Ev.remove])) ∧
    (render (fullOptions pdfOpts metadata) = false →
      render (retryOptionsOf (fullOptions pdfOpts metadata)) = true →
        convert_to_pdf true render pdfOpts metadata
          = (Except.ok (), [Ev.create,
              Ev.attempt (fullOptions pdfOpts metadata),
              Ev.attempt (retryOptionsOf (fullOptions pdfOpts metadata)),
              Ev.remove])) ∧
    (render (fullOptions pdfOpts metadata) = false →
      render (retryOptionsOf (fullOptions pdfOpts metadata)) = false →
        convert_to_pdf true render pdfOpts metadata
          = (Except.error ErrKind.conversion, [Ev.create,
              Ev.attempt (fullOptions pdfOpts metadata),
              Ev.attempt (retryOptionsOf (fullOptions pdfOpts metadata)),
              Ev.remove])) ∧
    (retryOptionsOf (fullOptions pdfOpts metadata)).map Prod.fst
        = ["quiet", "page-size", "encoding"] :=
  ⟨fun h => by simp [convert_to_pdf, h],
   fun h1 h2 => by simp [convert_to_pdf, h1, h2],
   fun h1 h2 => by simp [convert_to_pdf, h1, h2],
   by simp [retryOptionsOf]⟩

/-- Witness for `pdf_retry_spec` with a renderer that always fails: both
attempts are made, in order, and the call ends in a Conversion error. -/
theorem pdf_retry_spec_witness :
    convert_to_pdf true (fun _ => false)
      [("page-size", Value.vstr "A4"), ("encoding", Value.vstr "UTF-8")]
      [("creator", Value.vstr "c")]
      = (Except.error ErrKind.conversion,
         [Ev.create,
          Ev.attempt (fullOptions
            [("page-size", Value.vstr "A4"), ("encoding", Value.vstr "UTF-8")]
            [("creator", Value.vstr "c")]),
          Ev.attempt (retryOptionsOf (fullOptions
            [("page-size", Value.vstr "A4"), ("encoding", Value.vstr "UTF-8")]
            [("creator", Value.vstr "c")])),
          Ev.remove]) :=
  (pdf_retry_spec (fun _ => false)
    [("page-size", Value.vstr "A4"), ("encoding", Value.vstr "UTF-8")]
    [("creator", Value.vstr "c")]).2.2.1 rfl rfl

/-- C8. Temporary-directory cleanup: the event trace of every
`_convert_to_pdf` run is `create`, then the render attempts, then `remove` —
the scoped temporary directory is created first and removed last on every
exit path (write failure, first-attempt success, retry success, and failure
of both attempts alike). -/
theorem temp_dir_cleanup (writeOk : Bool) (render : Dict → Bool)
    (pdfOpts metadata : Dict) :
    ∃ atts : List Dict,
      (convert_to_pdf writeOk render pdfOpts metadata).2
        = Ev.create :: (atts.map Ev.attempt ++ [Ev.remove]) := by
  cases writeOk with
  | false => exact ⟨[], by simp [convert_to_pdf]⟩
  | true =>
      cases h1 : render (fullOptions pdfOpts metadata) with
      | true =>
          exact ⟨[fullOptions pdfOpts metadata],
            by simp [convert_to_pdf, h1]⟩
      | false =>
          cases h2 : render (retryOptionsOf (fullOptions pdfOpts metadata))
              with
          | true =>
              exact ⟨[fullOptions pdfOpts metadata,
                retryOptionsOf (fullOptions pdfOpts metadata)],
                by simp [convert_to_pdf, h1, h2]⟩
          | false =>
              exact ⟨[fullOptions pdfOpts metadata,
                retryOptionsOf (fullOptions pdfOpts metadata)],
                by simp [convert_to_pdf, h1, h2]⟩

/-! Section: Exit codes -/

/-- How a stage of the `main` try block can end: normal return, a
`ConversionError` (or subclass, carrying its kind), a `KeyboardInterrupt`
(which does not derive `Exception`), or any other `Exception`. -/
inductive PyEvent where
  | ret
  | raiseConv (k : ErrKind)
  | raiseKeyboard
  | raiseOther
deriving DecidableEq

/-- The exception handling of `convert` (source lines 365-370): a
`ConversionError` is re-raised as is; any other `Exception` is wrapped into a
generic `ConversionError`; `KeyboardInterrupt` is not an `Exception`, so it
propagates unchanged. -/
def convert_wrap : PyEvent → PyEvent
  | PyEvent.raiseOther => PyEvent.raiseConv ErrKind.conversion
  | e => e

/-- The `except` clauses of `main` (source lines 425-432): exit 0 on normal
return, 1 on `ConversionError` (any of the defined kinds), 2 on
`KeyboardInterrupt`, 3 on anything else. -/
def exit_for : PyEvent → Nat
  | PyEvent.ret => 0
  | PyEvent.raiseConv _ => 1
  | PyEvent.raiseKeyboard => 2
  | PyEvent.raiseOther => 3

/-- The `main` function (source lines 409-432): argument parsing and logging
setup run first, then the converter constructor, then `convert` (whose
escaping exceptions pass through `convert_wrap`); the first stage to raise
determines the exit code. -/
def main_exit (argsEvent ctorEvent convertEvent : PyEvent) : Nat :=
  match argsEvent with
  | PyEvent.ret =>
      match ctorEvent with
      | PyEvent.ret => exit_for (convert_wrap convertEvent)
      | e => exit_for e
  | e => exit_for e

/-- C7. Exit-code mapping: 0 on success; 1 when any stage raises any of the
defined error kinds; 2 on user cancellation at any stage; 3 on an unexpected
failure outside `convert`; and an unexpected failure inside `convert` is
first wrapped into a generic Conversion error, hence also exits with 1. -/
theorem exit_code_spec :
    main_exit PyEvent.ret PyEvent.ret PyEvent.ret = 0 ∧
    (∀ k, main_exit PyEvent.ret PyEvent.ret (PyEvent.raiseConv k) = 1) ∧
    (∀ k e, main_exit PyEvent.ret (PyEvent.raiseConv k) e = 1) ∧
    (∀ k e e', main_exit (PyEvent.raiseConv k) e e' = 1) ∧
    main_exit PyEvent.ret PyEvent.ret PyEvent.raiseKeyboard = 2 ∧
    (∀ e, main_exit PyEvent.ret PyEvent.raiseKeyboard e = 2) ∧
    (∀ e e', main_exit PyEvent.raiseKeyboard e e' = 2) ∧
    (∀ e, main_exit PyEvent.ret PyEvent.raiseOther e = 3) ∧
    (∀ e e', main_exit PyEvent.raiseOther e e' = 3) ∧
    convert_wrap PyEvent.raiseOther = PyEvent.raiseConv ErrKind.conversion ∧
    main_exit PyEvent.ret PyEvent.ret PyEvent.raiseOther = 1 :=
  ⟨rfl, fun _ => rfl, fun _ _ => rfl, fun _ _ _ => rfl, rfl,
   fun _ => rfl, fun _ _ => rfl, fun _ => rfl, fun _ _ => rfl, rfl, rfl⟩

/-! Section: Object identity: `DEFAULT_CONFIG.copy()` and the in-place merge

`_deep_merge` mutates its `base` argument in place, and `_load_config`
(source line 128) starts from the **shallow** copy `DEFAULT_CONFIG.copy()`,
whose values — including the references to the nested section dicts — are
the very objects of the module-level `DEFAULT_CONFIG`. The model below
tracks Python object identity with an explicit heap of dict objects. -/

/-- A value stored in a dict object on the heap: a scalar string, or a
reference to another dict object. (Every value in `DEFAULT_CONFIG` is a
string or a dict.) -/
inductive HVal where
  | str (s : String)
  | ref (a : Nat)

/-- A dict object: insertion-ordered bindings of keys to stored values. -/
abbrev Obj := List (String × HVal)

/-- A heap of dict objects, addressed by index; allocation appends. -/
structure Heap where
  objs : List Obj

/-- The dict object at address `a`. -/
def Heap.get (h : Heap) (a : Nat) : Obj := h.objs.getD a []

/-- Overwrite the dict object at address `a` (in-place mutation). -/
def Heap.write (h : Heap) (a : Nat) (o : Obj) : Heap := ⟨h.objs.set a o⟩

/-- Allocate a fresh dict object; returns the new heap and its address. -/
def Heap.alloc (h : Heap) (o : Obj) : Heap × Nat :=
  (⟨h.objs ++ [o]⟩, h.objs.length)

/-- Lookup in a dict object (Python `d[k]` / `k in d`). -/
def lookupH : Obj → String → Option HVal
  | [], _ => none
  | (k', v') :: rest, k => if k' = k then some v' else lookupH rest k

/-- Assignment in a dict object (Python `d[k] = v`). -/
def setKeyH : Obj → String → HVal → Obj
  | [], k, v => [(k, v)]
  | (k', v') :: rest, k, v =>
      if k' = k then (k, v) :: rest else (k', v') :: setKeyH rest k v

/-- A parsed user configuration (the result of `yaml.safe_load`): a fresh
tree, disjoint from the heap. -/
inductive YVal where
  | str (s : String)
  | dict (d : List (String × YVal))

mutual

/-- Materialise a parsed YAML value on the heap (storing a dict value makes
its object reachable from the heap). -/
def allocY (h : Heap) : YVal → Heap × HVal
  | YVal.str s => (h, HVal.str s)
  | YVal.dict d =>
      let p := allocEntries h d
      let q := Heap.alloc p.1 p.2
      (q.1, HVal.ref q.2)
termination_by y => sizeOf y

/-- Materialise the entries of a parsed YAML dict on the heap. -/
def allocEntries (h : Heap) : List (String × YVal) → Heap × Obj
  | [] => (h, [])
  | (k, v) :: rest =>
      let p := allocY h v
      let q := allocEntries p.1 rest
      (q.1, (k, p.2) :: q.2)
termination_by l => sizeOf l

end

mutual

/-- One step of the in-place `_deep_merge` (source lines 149-153) for the
binding `(k, v)` of the override: when `base[k]` is a dict object and `v` is
a dict, merge `v` into that same object in place (and re-assign the same
address to `base[k]`); otherwise store `v` at `base[k]`. -/
def mergeKeyH (h : Heap) (base : Nat) (k : String) : YVal → Heap
  | YVal.str s => Heap.write h base (setKeyH (Heap.get h base) k (HVal.str s))
  | YVal.dict vd =>
      match lookupH (Heap.get h base) k with
      | some (HVal.ref a) =>
          let h1 := deepMergeH h a vd
          Heap.write h1 base (setKeyH (Heap.get h1 base) k (HVal.ref a))
      | _ =>
          let p := allocY h (YVal.dict vd)
          Heap.write p.1 base (setKeyH (Heap.get p.1 base) k p.2)
termination_by v => sizeOf v

/-- The in-place `_deep_merge` (source lines 140-154) of a parsed user
configuration into the dict object at address `base`, binding by binding. -/
def deepMergeH (h : Heap) (base : Nat) : List (String × YVal) → Heap
  | [] => h
  | (k, v) :: rest => deepMergeH (mergeKeyH h base k v) base rest
termination_by u => sizeOf u

end

/-- The `DEFAULT_CONFIG` constant (source lines 32-85) as four heap objects:
address 0 holds the top-level dict, address 1 `pdf_options`, address 2
`css_styles`, address 3 `metadata`. The three CSS text blocks are left as
parameters: no claim depends on their contents, only on the object
structure. -/
def initHeap (cssBase cssHeader cssFooter : String) : Heap :=
  ⟨[[("pdf_options", HVal.ref 1), ("css_styles", HVal.ref 2),
      ("metadata", HVal.ref 3)],
    [("page-size", HVal.str "A4"), ("margin-top", HVal.str "20mm"),
     ("margin-right", HVal.str "20mm"), ("margin-bottom", HVal.str "20mm"),
     ("margin-left", HVal.str "20mm"), ("encoding", HVal.str "UTF-8"),
     ("quiet", HVal.str "")],
    [("base", HVal.str cssBase), ("header", HVal.str cssHeader),
     ("footer", HVal.str cssFooter)],
    [("creator", HVal.str "Markdown to PDF Converter"),
     ("producer", HVal.str "Python pdfkit/wkhtmltopdf")]]⟩

/-- The `_load_config` routine (source lines 121-138): start from the
shallow copy `DEFAULT_CONFIG.copy()` — a fresh top-level dict whose bindings,
including the references to the nested section dicts, are shared with the
original — then, when a user configuration was parsed, `_deep_merge` it into
that copy in place. Returns the new heap and the address of this converter's
config dict. -/
def load_config (h : Heap) (defaultAddr : Nat)
    (userCfg : Option (List (String × YVal))) : Heap × Nat :=
  let p := Heap.alloc h (Heap.get h defaultAddr)
  match userCfg with
  | none => p
  | some u => (deepMergeH p.1 p.2 u, p.2)

/-- The user override `{pdf_options: {page-size: Letter}}` used to exhibit
the mutation of `DEFAULT_CONFIG`. -/
def letterOverride : List (String × YVal) :=
  [("pdf_options", YVal.dict [("page-size", YVal.str "Letter")])]

/-- The heap after a first converter is initialised with `letterOverride`. -/
def heapAfterFirstRun (cssBase cssHeader cssFooter : String) : Heap :=
  (load_config (initHeap cssBase cssHeader cssFooter) 0
    (some letterOverride)).1

/-- C3 (refuted by the code — the claim describes the intended behaviour).
Before any run, the built-in `DEFAULT_CONFIG['pdf_options']['page-size']`
(the object at address 1) is `"A4"`. Loading the user configuration
`{pdf_options: {page-size: Letter}}` mutates that very object to
`"Letter"`, because `DEFAULT_CONFIG.copy()` is shallow and `_deep_merge`
merges into the shared nested dict in place; a second converter initialised
afterwards with no user configuration gets a config whose `pdf_options`
binding still references address 1, hence starts from the altered defaults
rather than the built-in ones. -/
theorem default_config_mutation (cssB cssH cssF : String) :
    lookupH (Heap.get (initHeap cssB cssH cssF) 1) "page-size"
      = some (HVal.str "A4") ∧
    lookupH (Heap.get (heapAfterFirstRun cssB cssH cssF) 1) "page-size"
      = some (HVal.str "Letter") ∧
    lookupH (Heap.get (load_config (heapAfterFirstRun cssB cssH cssF)
          0 none).1
        (load_config (heapAfterFirstRun cssB cssH cssF) 0 none).2)
      "pdf_options" = some (HVal.ref 1) := by
  refine ⟨?_, ?_, ?_⟩ <;>
    simp [initHeap, heapAfterFirstRun, load_config, letterOverride,
      deepMergeH, mergeKeyH, allocY, allocEntries, Heap.get, Heap.alloc,
      Heap.write, lookupH, setKeyH, List.getD]

end MdToPdf
